import Mathlib

/-!
Verification of the Wisdom Vault backend server (src/server/server.js,
latest revision of the file) against its natural-language specification.

The JavaScript code is shallowly embedded: pure functions become Lean
functions over `String`/`Int`/`List`; the stateful pipeline of the
`POST /process-insight` handler becomes a pure function from an
environment (the outcomes of all external calls: podcast search, audio
download/trim subprocesses, transcription, language model) to a record
holding the HTTP response, the final state of this run's temporary files
on disk, and the trace of external calls performed.

JavaScript-specific semantics (falsy values `""`/`0`/`null`/`undefined`,
`parseInt`, `Array.prototype.slice` with negative indices, `String.trim`)
are modelled explicitly by the `js*` helpers below.
-/

namespace WisdomVault

/-- Whitespace characters recognised by JavaScript string trimming and by
the regex class that the server applies to ASCII-range input. -/
def jsWhitespaceChar (c : Char) : Bool :=
  c = ' ' || c = '\t' || c = '\n' || c = '\r' || c = '\x0b' || c = '\x0c'

/-- JavaScript `String.prototype.trim`: remove leading and trailing
whitespace. -/
def jsTrim (s : String) : String :=
  String.mk (((s.toList.dropWhile jsWhitespaceChar).reverse.dropWhile
    jsWhitespaceChar).reverse)

/-- Truthiness of a JavaScript string: the empty string is falsy. -/
def jsTruthyStr (s : String) : Bool := !s.isEmpty

/-- Truthiness of a possibly-absent JavaScript string value
(`undefined`/`null` and `""` are falsy). -/
def jsTruthyOptStr : Option String → Bool
  | none => false
  | some s => jsTruthyStr s

/-- JavaScript `x || y` for a possibly-absent string `x`
(used for patterns like `seg.text || seg.words || ''`). -/
def jsOrStr (x : Option String) (y : String) : String :=
  match x with
  | some s => if s.isEmpty then y else s
  | none => y

/-- JavaScript `x || y` for a possibly-absent number `x`; `0` is falsy
(used for patterns like `seg.start_time || seg.start || 0`). -/
def jsOrInt (x : Option Int) (y : Int) : Int :=
  match x with
  | some v => if v = 0 then y else v
  | none => y

/-- JavaScript `Array.prototype.slice(start, stop)`: negative indices
count from the end of the array; the result is the contiguous run between
the clamped indices. -/
def jsSlice {α : Type} (l : List α) (start stop : Int) : List α :=
  let len : Int := l.length
  let s : Int := if start < 0 then max (len + start) 0 else min start len
  let e : Int := if stop < 0 then max (len + stop) 0 else min stop len
  (l.drop s.toNat).take (e - s).toNat

/-- Helper for `jsSplitChar`: `acc` holds the current field reversed. -/
def jsSplitCharAux (sep : Char) : List Char → List Char → List String
  | [], acc => [String.mk acc.reverse]
  | c :: cs, acc =>
      if c = sep then
        String.mk acc.reverse :: jsSplitCharAux sep cs []
      else jsSplitCharAux sep cs (c :: acc)

/-- JavaScript `s.split(sep)` for a one-character separator: consecutive
separators produce empty fields and the empty string splits to `[""]`. -/
def jsSplitChar (s : String) (sep : Char) : List String :=
  jsSplitCharAux sep s.toList []

/-- Numeric value of a decimal digit run. -/
def decDigitsVal (ds : List Char) : Nat :=
  ds.foldl (fun a c => a * 10 + (c.toNat - '0'.toNat)) 0

/-- Is `c` a hexadecimal digit? -/
def isHexDigitChar (c : Char) : Bool :=
  c.isDigit || ('a' ≤ c && c ≤ 'f') || ('A' ≤ c && c ≤ 'F')

/-- Numeric value of one hexadecimal digit. -/
def hexDigitVal (c : Char) : Nat :=
  if c.isDigit then c.toNat - '0'.toNat
  else if 'a' ≤ c && c ≤ 'f' then c.toNat - 'a'.toNat + 10
  else c.toNat - 'A'.toNat + 10

/-- Numeric value of a hexadecimal digit run. -/
def hexDigitsVal (ds : List Char) : Nat :=
  ds.foldl (fun a c => a * 16 + hexDigitVal c) 0

/-- JavaScript `parseInt(s)` with no radix argument: skip leading
whitespace, read an optional sign, then either a `0x`/`0X`-prefixed
hexadecimal digit run or a decimal digit run; `none` models `NaN`
(no digits found). -/
def jsParseInt (s : String) : Option Int :=
  let cs := s.toList.dropWhile jsWhitespaceChar
  let signAndRest : Int × List Char :=
    match cs with
    | '-' :: rest => (-1, rest)
    | '+' :: rest => (1, rest)
    | _ => (1, cs)
  let sign := signAndRest.1
  match signAndRest.2 with
  | '0' :: c :: rest =>
      if c = 'x' || c = 'X' then
        let ds := rest.takeWhile isHexDigitChar
        if ds.isEmpty then none
        else some (sign * (hexDigitsVal ds : Int))
      else
        let ds := ('0' :: c :: rest).takeWhile Char.isDigit
        some (sign * (decDigitsVal ds : Int))
  | cs' =>
      let ds := cs'.takeWhile Char.isDigit
      if ds.isEmpty then none
      else some (sign * (decDigitsVal ds : Int))

/-- `const timestampSeconds = parseInt(timestamp) || 0;` — an absent
timestamp, a `NaN` parse, or a parsed `0` all yield `0`. -/
def timestampSecondsOf (timestamp : Option String) : Int :=
  match timestamp with
  | none => 0
  | some ts =>
      match jsParseInt ts with
      | none => 0
      | some n => if n = 0 then 0 else n

/-- One entry of a structured (time-coded) transcript. External data may
use `start`/`start_time`, `end`/`end_time`, `text`/`words`; absent keys
are `none`. -/
structure TranscriptSeg where
  start_time : Option Int
  start : Option Int
  end_time : Option Int
  «end» : Option Int
  text : Option String
  words : Option String
deriving DecidableEq

/-- Effective start of a segment: `seg.start_time || seg.start || 0`. -/
def segStartOf (seg : TranscriptSeg) : Int :=
  jsOrInt seg.start_time (jsOrInt seg.start 0)

/-- Effective end of a segment:
`seg.end_time || seg.end || segStart + 5`. -/
def segEndOf (seg : TranscriptSeg) : Int :=
  jsOrInt seg.end_time (jsOrInt seg.«end» (segStartOf seg + 5))

/-- Effective text of a segment: `seg.text || seg.words || ''`. -/
def segTextOf (seg : TranscriptSeg) : String :=
  jsOrStr seg.text (jsOrStr seg.words "")

/-- A transcript payload as probed by the server: a flat string, an array
of time-coded segments, or any other shape. -/
inductive TranscriptPayload where
  | flat (s : String)
  | segments (segs : List TranscriptSeg)
  | other
deriving DecidableEq

/-- JavaScript truthiness of a transcript payload: the empty string is
falsy; arrays and other objects are truthy. -/
def jsTruthyPayload : TranscriptPayload → Bool
  | .flat s => !s.isEmpty
  | .segments _ => true
  | .other => true

/-- Fuelled floor-log2 of a natural number (`natLog2F n n` peels one
fuel per halving, so the fuel bound `n` is never the limiting factor);
structural recursion keeps it kernel-evaluable. -/
def natLog2F : Nat → Nat → Nat
  | 0, _ => 0
  | f + 1, n => if n ≤ 1 then 0 else natLog2F f (n / 2) + 1

/-- Floor of the base-2 logarithm of a positive natural number. -/
def natLog2 (n : Nat) : Nat := natLog2F n n

/-- Is `2 ^ e ≤ p / q` for a positive fraction `p / q`? (Cross-
multiplied to stay in natural-number arithmetic.) -/
def pow2LeFrac (e : Int) (p q : Nat) : Bool :=
  if 0 ≤ e then 2 ^ e.toNat * q ≤ p else q ≤ 2 ^ (-e).toNat * p

/-- Binade exponent of a positive fraction `p / q`: the unique `e` with
`2 ^ e ≤ p / q < 2 ^ (e + 1)`. -/
def frac2e (p q : Nat) : Int :=
  let e0 : Int := (natLog2 p : Int) - (natLog2 q : Int)
  if pow2LeFrac e0 p q then e0 else e0 - 1

/-- Round `num / den` to the nearest natural number, ties to even. -/
def divRHE (num den : Nat) : Nat :=
  let n := num / den
  let r := num % den
  if 2 * r < den then n
  else if den < 2 * r then n + 1
  else if n % 2 = 0 then n else n + 1

/-- Round the positive fraction `p / q` to the nearest IEEE-754
binary64 value (53-bit significand, round to nearest, ties to even),
returned as a mantissa/binade pair `(m, e)` denoting `m * 2 ^ (e - 52)`
with `2 ^ 52 ≤ m ≤ 2 ^ 53`. The exponent is unbounded: overflow and
subnormal rounding cannot occur at the magnitudes a timestamp
computation reaches, so they are not modelled. -/
def round53 (p q : Nat) : Nat × Int :=
  let e := frac2e p q
  let m := if 0 ≤ 52 - e then divRHE (p * 2 ^ (52 - e).toNat) q
    else divRHE p (q * 2 ^ (e - 52).toNat)
  (m, e)

/-- The exact positive fraction a mantissa/binade pair denotes. -/
def f53ToFrac (me : Nat × Int) : Nat × Nat :=
  if 0 ≤ me.2 - 52 then (me.1 * 2 ^ (me.2 - 52).toNat, 1)
  else (me.1, 2 ^ (52 - me.2).toNat)

/-- `Math.floor((timestampSeconds / 60) * 150)` — the approximate word
index at an assumed 150 words per minute, computed as the program does:
in IEEE-754 double precision (the timestamp held as a double, divided
by 60, multiplied by 150, each step correctly rounded to binary64, then
an exact floor; rounding is sign-symmetric, so magnitudes are computed
on naturals and the floor of a negative value is the negated ceiling).
This differs from the exact floor of `t * 150 / 60` at some
timestamps: at `t = 22` the doubles give `54` where exact arithmetic
gives `55` (likewise at `t = 44, 88, 146, 176, ...`). -/
def approximateWordIndex (timestampSeconds : Int) : Int :=
  if timestampSeconds = 0 then 0
  else
    let n := timestampSeconds.natAbs
    let f1 := f53ToFrac (round53 n 1)
    let f2 := f53ToFrac (round53 f1.1 (f1.2 * 60))
    let f3 := f53ToFrac (round53 (f2.1 * 150) f2.2)
    if 0 ≤ timestampSeconds then (f3.1 / f3.2 : Nat)
    else -((f3.1 + f3.2 - 1) / f3.2 : Nat)

/-- The filter applied by `extractTranscriptSegment` to a structured
transcript: `segStart >= timestampSeconds - 5 &&
segEnd <= timestampSeconds + duration + 5`. -/
def relevantSegments (segs : List TranscriptSeg)
    (timestampSeconds duration : Int) : List TranscriptSeg :=
  segs.filter fun seg =>
    let segStart := jsOrInt seg.start_time (jsOrInt seg.start 0)
    let segEnd := jsOrInt seg.end_time (jsOrInt seg.«end» (segStart + 5))
    decide (segStart ≥ timestampSeconds - 5) &&
      decide (segEnd ≤ timestampSeconds + duration + 5)

/-- `extractTranscriptSegment(transcript, timestampSeconds, duration)`
from server.js. Flat strings are split on the single space character and
sliced around the approximate word index; structured transcripts are
filtered and their text fields joined; unknown shapes give `null`.
The server always calls it with the default `duration = 30`. -/
def extractTranscriptSegment (transcript : TranscriptPayload)
    (timestampSeconds duration : Int) : Option String :=
  match transcript with
  | .flat s =>
      let words := jsSplitChar s ' '
      let startIndex : Int := max 0 (approximateWordIndex timestampSeconds - 25)
      let endIndex : Int :=
        min (words.length : Int) (approximateWordIndex timestampSeconds + 75)
      some (String.intercalate " " (jsSlice words startIndex endIndex))
  | .segments segs =>
      some (String.intercalate " "
        ((relevantSegments segs timestampSeconds duration).map segTextOf))
  | .other => none

/-- Does `c` belong to the bullet-marker character class of the filter
regex in server.js? The class's literal contents (byte dump
`2d e2 80 9a c3 84 c2 a2 2a`) are `-`, U+201A, U+00C4, U+00A2, `*` — a
mojibake remnant of an intended `•` (U+2022), which itself is NOT in
the class, so a real `•`-marked line never matches. -/
def isBulletMarkerChar (c : Char) : Bool :=
  c = '-' || c = '‚' || c = 'Ä' || c = '¢' || c = '*'

/-- Does the (already trimmed) line match the bullet-marker branch of
the filter regex (one class character followed by whitespace)? -/
def matchesBulletLine (s : String) : Bool :=
  match s.toList with
  | c1 :: c2 :: _ => isBulletMarkerChar c1 && jsWhitespaceChar c2
  | _ => false

/-- Does the (already trimmed) line match `/^\d+\.\s/`? -/
def matchesNumberedLine (s : String) : Bool :=
  let cs := s.toList
  let ds := cs.takeWhile Char.isDigit
  match cs.drop ds.length with
  | '.' :: c :: _ => !ds.isEmpty && jsWhitespaceChar c
  | _ => false

/-- The marker strip step of server.js — the strip regex's character
class (the same five literal characters as the filter class, plus
digits and the dot) matches exactly ONE leading character (there is no
`+` after it), followed by a possibly empty whitespace run; a line not
starting with a class character is returned unchanged. -/
def stripLeadingMarker (line : String) : String :=
  match line.toList with
  | c :: rest =>
      if isBulletMarkerChar c || c.isDigit || c = '.' then
        String.mk (rest.dropWhile jsWhitespaceChar)
      else line
  | [] => line

/-- The bullet-parsing step of `summarizeTranscript` in server.js:
split on newlines; keep lines whose trimmed form matches a bullet or
numbered marker; apply the single-character marker strip to the
UNTRIMMED line and trim; drop empty results; take the first three; if
none survive, fall back to the whole trimmed response. -/
def parseBullets (content : String) : List String :=
  let bullets :=
    (((((jsSplitChar content '\n').filter fun line =>
          matchesBulletLine (jsTrim line) ||
            matchesNumberedLine (jsTrim line)).map
        fun line => jsTrim (stripLeadingMarker line)).filter
      fun line => 0 < line.length).take 3)
  if 0 < bullets.length then bullets else [jsTrim content]

/-- The on-disk state of the two temporary audio files a run may create:
the full-length download (`full_<ts>.mp3`) and the trimmed snippet
(`snippet_<ts>.mp3`). -/
structure Disk where
  fullExists : Bool
  snippetExists : Bool
deriving DecidableEq

/-- `cleanupTempFiles([fullAudioPath, snippetPath])`: unlink both files,
ignoring errors (deleting a missing file is a caught no-op). -/
def cleanupTempFiles2 (_d : Disk) : Disk := ⟨false, false⟩

/-- The message of the error `fs.stat` rejects with when a file is
missing. -/
def statMissingFileMsg : String := "no such file or directory"

/-- Outcomes of the external subprocesses driven by
`extractAudioSnippet`: the curl download (whether the command succeeds,
whether the output file exists afterwards, and its byte size) and the
ffmpeg trim (likewise). Error values carry the subprocess error
message. -/
structure FetchEnv where
  curl : Except String Unit
  curlCreatesFile : Bool
  fullSize : Nat
  ffmpeg : Except String Unit
  ffmpegCreatesFile : Bool
  snippetSize : Nat

/-- `extractAudioSnippet(audioUrl, timestampSeconds, duration)` from
server.js: curl download, size check (≥ 10000 bytes), ffmpeg trim,
unconditional deletion of the full file, snippet size check
(≥ 1000 bytes). The catch block deletes whichever temporary files exist
and rethrows with the `Failed to extract audio snippet: ` prefix.
Returns the result (ok = the snippet path) paired with the final state
of this run's temporary files. -/
def extractAudioSnippet (env : FetchEnv)
    (_timestampSeconds _duration : Int) : Except String Unit × Disk :=
  let d1 : Disk := ⟨env.curlCreatesFile, false⟩
  match env.curl with
  | .error e =>
      (.error ("Failed to extract audio snippet: " ++ e), cleanupTempFiles2 d1)
  | .ok _ =>
      if !d1.fullExists then
        (.error ("Failed to extract audio snippet: " ++ statMissingFileMsg),
          cleanupTempFiles2 d1)
      else if env.fullSize < 10000 then
        (.error "Failed to extract audio snippet: Downloaded file too small",
          cleanupTempFiles2 d1)
      else
        let d2 : Disk := ⟨true, env.ffmpegCreatesFile⟩
        match env.ffmpeg with
        | .error e =>
            (.error ("Failed to extract audio snippet: " ++ e),
              cleanupTempFiles2 d2)
        | .ok _ =>
            let d3 : Disk := ⟨false, d2.snippetExists⟩
            if !d3.snippetExists then
              (.error ("Failed to extract audio snippet: " ++
                statMissingFileMsg), cleanupTempFiles2 d3)
            else if env.snippetSize < 1000 then
              (.error ("Failed to extract audio snippet: " ++
                "Audio snippet too small - extraction may have failed"),
                cleanupTempFiles2 d3)
            else (.ok (), d3)

/-- The episode object `searchListenNotes` builds from the first (or
show-matching) search result. `hasTranscript` is the truthiness of the
result's transcript field. -/
structure Episode where
  id : String
  title : String
  showName : String
  audioUrl : Option String
  thumbnail : Option String
  hasTranscript : Bool

/-- External calls a `/process-insight` run can perform, in order. -/
inductive Event where
  | search
  | getTranscript
  | audioExtract (timestampSeconds : Int)
  | whisper
  | summarize (transcript : String)
  | logSupabase
deriving DecidableEq

/-- The `data` object of a `/process-insight` response. Fields the
JavaScript sets to `null` or leaves absent are `none`; `manualMode` is
absent (hence falsy) on the success path and `true` on the manual path. -/
structure InsightData where
  episodeTitle : String
  showName : String
  thumbnail : Option String
  transcript : Option String
  summary : Option (List String)
  timestampSeconds : Int
  manualMode : Bool
  message : Option String
deriving DecidableEq

/-- An HTTP response of the handler: status code, `success` flag, the
optional `data` object, and the optional top-level `message`. -/
structure Response where
  status : Nat
  success : Bool
  data : Option InsightData
  message : Option String
deriving DecidableEq

/-- The environment of one `/process-insight` run: the request body
fields and the outcomes of every external call the run might make. -/
structure RunEnv where
  title : Option String
  showName : Option String
  timestamp : Option String
  spotifyUrl : Option String
  search : Except Unit (Option Episode)
  episodeTranscript : Option TranscriptPayload
  fetch : FetchEnv
  whisper : Except String String
  model : Except String String

/-- `getEpisodeTranscript(episodeId)` from server.js: returns the
service's transcript field if truthy, `null` otherwise (errors are
caught internally and also yield `null`). -/
def getEpisodeTranscript (env : RunEnv) : Option TranscriptPayload :=
  match env.episodeTranscript with
  | some p => if jsTruthyPayload p then some p else none
  | none => none

/-- The observable outcome of one `/process-insight` run: the HTTP
response, the final on-disk state of this run's temporary audio files,
the trace of external calls, and — as a ghost observation — the value of
the `transcript` variable if control reached the blank-transcript check
(`!transcript || transcript.trim().length === 0`). -/
structure RunResult where
  resp : Response
  disk : Disk
  trace : List Event
  checkedTranscript : Option (Option String)

/-- The blank-transcript check of the handler:
`!transcript || transcript.trim().length === 0`. -/
def jsBlankTranscript : Option String → Bool
  | none => true
  | some s => !jsTruthyStr s || (jsTrim s).length = 0

/-- The tail of the handler from the blank-transcript check to the end
of the try block, plus the finally block: fail with 500 on a blank
transcript; otherwise summarize (the only point at which the language
model is called), log to Supabase, and assemble the success response —
`episodeTitle` is the caller's original title and `showName` prefers the
caller's value over the resolved episode's. The finally block deletes
the snippet file when `audioPath` was set. -/
def finishRun (env : RunEnv) (title : String) (episode : Episode)
    (timestampSeconds : Int) (transcript : Option String)
    (audioPathSet : Bool) (d : Disk) (trace : List Event) : RunResult :=
  let finalize : Disk → Disk := fun dk =>
    if audioPathSet then ⟨dk.fullExists, false⟩ else dk
  if jsBlankTranscript transcript then
    ⟨⟨500, false, none, some "Failed to get transcript for this segment"⟩,
      finalize d, trace, some transcript⟩
  else
    let t := transcript.getD ""
    let trace' := trace ++ [Event.summarize t]
    match env.model with
    | .error e =>
        ⟨⟨500, false, none, some ("Failed to summarize transcript: " ++ e)⟩,
          finalize d, trace', some transcript⟩
    | .ok content =>
        ⟨⟨200, true,
            some ⟨title, jsOrStr env.showName episode.showName,
              episode.thumbnail, some t, some (parseBullets content),
              timestampSeconds, false, none⟩, none⟩,
          finalize d, trace' ++ [Event.logSupabase], some transcript⟩

/-- Step 3 of the handler (taken when no embedded-transcript segment was
obtained): require an audio URL (404 otherwise), download and trim the
snippet, transcribe it, and continue with `finishRun`; the download/trim
and transcription failures surface as 500 responses, and `audioPath` is
set — so the finally block deletes the snippet — exactly when
`extractAudioSnippet` returned. -/
def audioPath (env : RunEnv) (title : String) (episode : Episode)
    (timestampSeconds : Int) (trace : List Event) : RunResult :=
  if !jsTruthyOptStr episode.audioUrl then
    ⟨⟨404, false, none, some "No audio URL available for this episode"⟩,
      ⟨false, false⟩, trace, none⟩
  else
    let fetched := extractAudioSnippet env.fetch timestampSeconds 30
    let trace' := trace ++ [Event.audioExtract timestampSeconds]
    match fetched.1 with
    | .error msg =>
        ⟨⟨500, false, none, some msg⟩, fetched.2, trace', none⟩
    | .ok _ =>
        let trace'' := trace' ++ [Event.whisper]
        match
          (if fetched.2.snippetExists then env.whisper
           else .error statMissingFileMsg) with
        | .error msg =>
            ⟨⟨500, false, none,
                some ("Failed to transcribe audio: " ++ msg)⟩,
              ⟨fetched.2.fullExists, false⟩, trace'', none⟩
        | .ok txt =>
            finishRun env title episode timestampSeconds (some txt)
              true fetched.2 trace''

/-- The `POST /process-insight` handler of server.js (latest revision):
validation, Listen Notes search, manual mode on a missing episode,
hybrid transcript acquisition (embedded transcript, else the audio
path), blank-transcript check, summarization, audit log, response
assembly, and the finally-block cleanup of the snippet file. -/
def processInsight (env : RunEnv) : RunResult :=
  if !jsTruthyOptStr env.title then
    ⟨⟨400, false, none, some "Title is required"⟩, ⟨false, false⟩, [], none⟩
  else
    let title := env.title.getD ""
    let timestampSeconds := timestampSecondsOf env.timestamp
    match env.search with
    | .error _ =>
        ⟨⟨500, false, none, some "Failed to search for podcast episode"⟩,
          ⟨false, false⟩, [.search], none⟩
    | .ok none =>
        ⟨⟨200, true,
            some ⟨title, jsOrStr env.showName "Unknown Show", none, none,
              none, timestampSeconds, true,
              some "Podcast not found in database. You can add your own notes!"⟩,
            none⟩,
          ⟨false, false⟩, [.search, .logSupabase], none⟩
    | .ok (some episode) =>
        let transcriptAndTrace : Option String × List Event :=
          if episode.hasTranscript then
            match getEpisodeTranscript env with
            | some fullTranscript =>
                (extractTranscriptSegment fullTranscript timestampSeconds 30,
                  [.search, .getTranscript])
            | none => (none, [.search, .getTranscript])
          else (none, [.search])
        let transcript := transcriptAndTrace.1
        let trace := transcriptAndTrace.2
        if jsTruthyOptStr transcript then
          finishRun env title episode timestampSeconds transcript false
            ⟨false, false⟩ trace
        else
          audioPath env title episode timestampSeconds trace

/-! ## Spec-side definitions

The following definitions follow the words of the specification claims
(not the source); they exist solely to be compared with the source-level
definitions above. -/

/-- From the spec's words (claim C4): keep the segments whose `[start,
end)` interval OVERLAPS the window `[t - 5, t + w + 5]`, and join their
text fields in the original order. A half-open `[s, e)` meets the closed
window iff `s ≤ t + w + 5` and `t - 5 < e`. -/
def extractSegmentsOverlapSpec (segs : List TranscriptSeg)
    (timestampSeconds duration : Int) : Option String :=
  some (String.intercalate " "
    ((segs.filter fun seg =>
        decide (segStartOf seg ≤ timestampSeconds + duration + 5) &&
          decide (timestampSeconds - 5 < segEndOf seg)).map segTextOf))

/-- Helper for `whitespaceTokens`: split on whitespace runs, dropping
empty tokens. -/
def whitespaceTokensAux : List Char → List Char → List String
  | [], acc => if acc.isEmpty then [] else [String.mk acc.reverse]
  | c :: cs, acc =>
      if jsWhitespaceChar c then
        if acc.isEmpty then whitespaceTokensAux cs []
        else String.mk acc.reverse :: whitespaceTokensAux cs []
      else whitespaceTokensAux cs (c :: acc)

/-- The whitespace-delimited tokens of a string (empty tokens dropped). -/
def whitespaceTokens (s : String) : List String :=
  whitespaceTokensAux s.toList []

/-- From the claim's words (C7): the word index `floor(t/60 * 150)`
read as exact arithmetic. The program instead computes it in double
precision (`approximateWordIndex`), which differs at some timestamps. -/
def exactWordIndex (timestampSeconds : Int) : Int :=
  Int.fdiv (timestampSeconds * 150) 60

/-- From the spec's words (claim C7): the slice of the payload's
whitespace-delimited tokens from `max(0, wordIndex - 25)` to
`min(tokenCount, wordIndex + 75)` with the exact word index, joined by
single spaces. -/
def extractFlatWhitespaceSpec (s : String) (timestampSeconds : Int) : String :=
  let tokens := whitespaceTokens s
  let startIndex : Int := max 0 (exactWordIndex timestampSeconds - 25)
  let endIndex : Int :=
    min (tokens.length : Int) (exactWordIndex timestampSeconds + 75)
  String.intercalate " "
    ((tokens.drop startIndex.toNat).take (endIndex - startIndex).toNat)

/-- From the claim's words (C3): the bullet markers are `-`, `•`
(U+2022, the real bullet), and `*`. -/
def isClaimBulletChar (c : Char) : Bool :=
  c = '-' || c = '•' || c = '*'

/-- From the claim's words (C3): does the line begin with a claimed
bullet marker followed by whitespace? -/
def matchesClaimBulletLine (s : String) : Bool :=
  match s.toList with
  | c1 :: c2 :: _ => isClaimBulletChar c1 && jsWhitespaceChar c2
  | _ => false

/-- From the spec's words (claim C3): strip THE WHOLE marker from a kept
line — the bullet character, or the full digit run plus the dot — and
trim the remainder. -/
def claimStripMarker (line : String) : String :=
  let cs := line.toList
  let stripped :=
    if matchesClaimBulletLine line then cs.drop 1
    else if matchesNumberedLine line then (cs.dropWhile Char.isDigit).drop 1
    else cs
  jsTrim (String.mk stripped)

/-- From the spec's words (claim C3): keep the lines beginning with a
bullet marker (`-`, `•`, `*`) or a numbered marker followed by
whitespace, strip the marker, trim, drop empty results, take at most
three, and fall back to the whole trimmed response when nothing
survives. -/
def parseBulletsClaimSpec (content : String) : List String :=
  let bullets :=
    ((((jsSplitChar content '\n').filter fun line =>
          matchesClaimBulletLine line || matchesNumberedLine line).map
        claimStripMarker).filter fun line => 0 < line.length).take 3
  if 0 < bullets.length then bullets else [jsTrim content]

/-- Amended description of the parser (claim C3): keep lines by their
TRIMMED form; strip at most ONE leading marker character (bullet, digit,
or dot) plus following whitespace from the UNTRIMMED line; trim; drop
empties; take three; fall back to the whole trimmed response. Written
via `filterMap` to be compared with the source-shaped `parseBullets`. -/
def parseBulletsAmendedSpec (content : String) : List String :=
  let kept := (jsSplitChar content '\n').filterMap fun line =>
    if matchesBulletLine (jsTrim line) || matchesNumberedLine (jsTrim line)
    then
      (if 0 < (jsTrim (stripLeadingMarker line)).length then
        some (jsTrim (stripLeadingMarker line)) else none)
    else none
  if kept.isEmpty then [jsTrim content] else kept.take 3

/-! ## Theorems -/

/-- The parser's keep-then-strip-then-drop-empty composition is one
`filterMap`. -/
theorem keep_strip_eq_filterMap (l : List String) :
    ((l.filter fun line =>
        matchesBulletLine (jsTrim line) ||
          matchesNumberedLine (jsTrim line)).map
      fun line => jsTrim (stripLeadingMarker line)).filter
        (fun line => 0 < line.length) =
      l.filterMap fun line =>
        if matchesBulletLine (jsTrim line) || matchesNumberedLine (jsTrim line)
        then
          (if 0 < (jsTrim (stripLeadingMarker line)).length then
            some (jsTrim (stripLeadingMarker line)) else none)
        else none := by
  induction l with
  | nil => rfl
  | cons a l ih =>
      by_cases hp :
          (matchesBulletLine (jsTrim a) || matchesNumberedLine (jsTrim a)) =
            true
      · rw [Bool.or_eq_true] at hp
        by_cases hq : 0 < (jsTrim (stripLeadingMarker a)).length
        · simp [List.filter_cons, List.filterMap_cons, hp, hq, ih]
        · simp [List.filter_cons, List.filterMap_cons, hp, hq, ih]
      · simp only [Bool.not_eq_true, Bool.or_eq_false_iff] at hp
        simp [List.filter_cons, List.filterMap_cons, hp.1, hp.2, ih]

/-- C3, counterexample. On the model response `"1. Alpha\n• Beta"` the
server's parser returns `[". Alpha"]`: the numbered marker leaves a
residual `". "` because the strip regex class matches only one leading
character, and the `•`-marked line is dropped entirely because the
filter class's literal contents are the mojibake characters U+201A,
U+00C4, U+00A2 rather than `•` (U+2022). The claim's parser (markers
`-`, `•`, `*` recognized and fully stripped) returns
`["Alpha", "Beta"]`. -/
theorem parseBullets_claim_counterexample :
    parseBullets "1. Alpha\n• Beta" = [". Alpha"] ∧
      parseBulletsClaimSpec "1. Alpha\n• Beta" = ["Alpha", "Beta"] ∧
      parseBullets "1. Alpha\n• Beta" ≠
        parseBulletsClaimSpec "1. Alpha\n• Beta" := by
  refine ⟨rfl, rfl, ?_⟩
  intro h
  rw [show parseBullets "1. Alpha\n• Beta" = [". Alpha"] from rfl] at h
  rw [show parseBulletsClaimSpec "1. Alpha\n• Beta" = ["Alpha", "Beta"]
    from rfl] at h
  exact absurd h (by decide)

/-- The fallback tail of the parser (`bullets.length > 0 ? bullets :
[content.trim()]` with `bullets = kept.take 3`) equals the amended
description's tail (`kept.isEmpty ? [content.trim()] : kept.take 3`). -/
theorem bullets_tail_eq (X : List String) (fb : String) :
    (if 0 < (X.take 3).length then X.take 3 else [fb]) =
      (if X.isEmpty then [fb] else X.take 3) := by
  cases X with
  | nil => simp
  | cons b bs => simp

/-- The `if`/`take 3` tail shared by the parser and its amended
description always yields between one and three entries. -/
theorem bullets_tail_length_bounds (X : List String) (fb : String) :
    1 ≤ (if X.isEmpty then [fb] else X.take 3).length ∧
      (if X.isEmpty then [fb] else X.take 3).length ≤ 3 := by
  cases X with
  | nil => simp
  | cons b bs =>
      constructor
      · simp
      · simp only [List.isEmpty_cons, if_neg Bool.false_ne_true,
          List.length_take]
        omega

/-- C3, amended claim: the parser keeps exactly the lines whose trimmed
form begins with a marker character from the regex class's literal
contents — `-`, `*`, or one of the mojibake characters U+201A, U+00C4,
U+00A2 (the real bullet `•` U+2022 is NOT recognized) — or a numbered
marker, followed by whitespace; from each kept line it removes at most
one leading class character (marker, digit, or dot) together with the
following whitespace run, applied to the untrimmed line, then trims;
drops empty results; returns at most the first three; if none survive it
returns the one-element list of the whole trimmed response — so parsing
never fails and always yields between one and three bullets. -/
theorem parseBullets_amended (content : String) :
    parseBullets content = parseBulletsAmendedSpec content ∧
      1 ≤ (parseBullets content).length ∧
      (parseBullets content).length ≤ 3 := by
  have hmain : parseBullets content = parseBulletsAmendedSpec content := by
    unfold parseBullets parseBulletsAmendedSpec
    rw [keep_strip_eq_filterMap]
    exact bullets_tail_eq _ _
  refine ⟨hmain, ?_, ?_⟩
  · rw [hmain]
    unfold parseBulletsAmendedSpec
    exact (bullets_tail_length_bounds _ _).1
  · rw [hmain]
    unfold parseBulletsAmendedSpec
    exact (bullets_tail_length_bounds _ _).2

/-- C4, counterexample. The segment `{start: 0, end: 20, text: "a"}`
OVERLAPS the window `[7, 47]` of `timestamp = 12, window = 30`, so the
claim keeps it; but the code requires CONTAINMENT
(`segStart >= t - 5 && segEnd <= t + w + 5`), so it drops the segment
and returns the empty string. -/
theorem extractTranscriptSegment_overlap_counterexample :
    extractTranscriptSegment
        (.segments [⟨none, some 0, none, some 20, some "a", none⟩]) 12 30 =
      some "" ∧
    extractSegmentsOverlapSpec
        [⟨none, some 0, none, some 20, some "a", none⟩] 12 30 = some "a" ∧
    extractTranscriptSegment
        (.segments [⟨none, some 0, none, some 20, some "a", none⟩]) 12 30 ≠
      extractSegmentsOverlapSpec
        [⟨none, some 0, none, some 20, some "a", none⟩] 12 30 := by
  refine ⟨by rfl, by rfl, ?_⟩
  intro h
  rw [show extractTranscriptSegment
      (.segments [⟨none, some 0, none, some 20, some "a", none⟩]) 12 30 =
      some "" from rfl,
    show extractSegmentsOverlapSpec
      [⟨none, some 0, none, some 20, some "a", none⟩] 12 30 =
      some "a" from rfl] at h
  exact absurd (Option.some.inj h) (by decide)

/-- C4, amended claim: for every segmented transcript payload, timestamp
`t` and window `w`, the function keeps exactly the segments whose
effective interval is CONTAINED in `[t - 5, t + w + 5]` — that is,
`segStart ≥ t - 5` and `segEnd ≤ t + w + 5`, with `segStart` defaulting
through `start_time || start || 0` and `segEnd` through
`end_time || end || segStart + 5` — and returns their text fields joined
by single spaces in the original order. -/
theorem extractTranscriptSegment_segmented_amended
    (segs : List TranscriptSeg) (t w : Int) :
    extractTranscriptSegment (.segments segs) t w =
      some (String.intercalate " "
        ((relevantSegments segs t w).map segTextOf)) ∧
    ∀ seg, seg ∈ relevantSegments segs t w ↔
      seg ∈ segs ∧ segStartOf seg ≥ t - 5 ∧ segEndOf seg ≤ t + w + 5 := by
  refine ⟨rfl, fun seg => ?_⟩
  unfold relevantSegments
  rw [List.mem_filter]
  simp [segStartOf, segEndOf, and_assoc]

/-- C5: when the curl download subprocess succeeds but the downloaded
file is below the 10000-byte threshold, `extractAudioSnippet` fails with
the audio-extraction error and the undersized file is already deleted
when the error reaches the caller. -/
theorem extractAudioSnippet_undersized_fails (env : FetchEnv)
    (t dur : Int) (hcurl : env.curl = .ok ())
    (hfile : env.curlCreatesFile = true) (hsize : env.fullSize < 10000) :
    extractAudioSnippet env t dur =
      (.error "Failed to extract audio snippet: Downloaded file too small",
        ⟨false, false⟩) := by
  unfold extractAudioSnippet
  rw [hcurl]
  simp [hfile, hsize, cleanupTempFiles2]

/-- Concrete instance of `extractAudioSnippet_undersized_fails`: a
successful download of 500 bytes fails and leaves no file behind. -/
theorem extractAudioSnippet_undersized_fails_witness :
    extractAudioSnippet ⟨.ok (), true, 500, .ok (), true, 50000⟩ 10 30 =
      (.error "Failed to extract audio snippet: Downloaded file too small",
        ⟨false, false⟩) :=
  extractAudioSnippet_undersized_fails ⟨.ok (), true, 500, .ok (), true, 50000⟩
    10 30 rfl rfl (by decide)

/-- C7, counterexample. On the flat payload `"hello\nworld"` at
`timestamp = 0` the code returns `"hello\nworld"` — it splits on the
single space character only, so the newline-joined pair is one token —
whereas the claim's whitespace-token slice is `"hello world"`.
Independently, the claim's slice indices are wrong of the program: at
`timestamp = 22` the program's double-precision word index is `54`
where the claim's exact `floor(22/60 * 150)` is `55`, shifting the
slice by one token. -/
theorem extractTranscriptSegment_flat_counterexample :
    extractTranscriptSegment (.flat "hello\nworld") 0 30 =
      some "hello\nworld" ∧
    extractFlatWhitespaceSpec "hello\nworld" 0 = "hello world" ∧
    extractTranscriptSegment (.flat "hello\nworld") 0 30 ≠
      some (extractFlatWhitespaceSpec "hello\nworld" 0) ∧
    approximateWordIndex 22 = 54 ∧ exactWordIndex 22 = 55 := by
  refine ⟨by rfl, by rfl, ?_, by decide, by decide⟩
  intro h
  rw [show extractTranscriptSegment (.flat "hello\nworld") 0 30 =
      some "hello\nworld" from rfl,
    show extractFlatWhitespaceSpec "hello\nworld" 0 = "hello world"
      from rfl] at h
  exact absurd (Option.some.inj h) (by decide)

/-- The double-precision word index agrees with IEEE-754 evaluation of
`Math.floor((t/60)*150)` — including at the timestamps where it differs
from the exact floor `floor(t*150/60)`: 22, 44, 88, 146 (values checked
against a binary64 implementation). -/
theorem approximateWordIndex_double_values :
    approximateWordIndex 0 = 0 ∧ approximateWordIndex 12 = 30 ∧
      approximateWordIndex 22 = 54 ∧ approximateWordIndex 44 = 109 ∧
      approximateWordIndex 88 = 219 ∧ approximateWordIndex 146 = 364 ∧
      approximateWordIndex (-22) = -55 := by
  refine ⟨by decide, by decide, by decide, by decide, by decide,
    by decide, by decide⟩

/-- C7, amended claim: for a flat-string payload the function slices the
SPACE-delimited token list (splitting at each single space character,
consecutive spaces giving empty tokens) from `max(0, wordIndex - 25)` to
`min(tokenCount, wordIndex + 75)` under JavaScript `Array.slice`
semantics, joined by single spaces, where `wordIndex` is
`Math.floor((t/60) * 150)` computed in IEEE-754 double precision
(`approximateWordIndex`, e.g. `54` at `t = 22` where exact arithmetic
gives `55`) — in particular the output is always a contiguous run of
the space-delimited token list. -/
theorem extractTranscriptSegment_flat_amended (s : String) (t : Int) :
    extractTranscriptSegment (.flat s) t 30 =
      some (String.intercalate " "
        (jsSlice (jsSplitChar s ' ')
          (max 0 (approximateWordIndex t - 25))
          (min ((jsSplitChar s ' ').length : Int)
            (approximateWordIndex t + 75)))) ∧
    ∃ i n, jsSlice (jsSplitChar s ' ')
        (max 0 (approximateWordIndex t - 25))
        (min ((jsSplitChar s ' ').length : Int)
          (approximateWordIndex t + 75)) =
      ((jsSplitChar s ' ').drop i).take n := by
  refine ⟨rfl, ?_⟩
  unfold jsSlice
  exact ⟨_, _, rfl⟩

/-- A disk state with neither flag set is the empty state. -/
theorem Disk.eq_empty (d : Disk) (h1 : d.fullExists = false)
    (h2 : d.snippetExists = false) : d = ⟨false, false⟩ := by
  cases d
  simp_all

/-- `extractAudioSnippet` never leaves the full-length download behind,
and it leaves the snippet behind only when it returns it to the caller. -/
theorem extractAudioSnippet_disk (env : FetchEnv) (t dur : Int) :
    (extractAudioSnippet env t dur).2.fullExists = false ∧
      ((extractAudioSnippet env t dur).2.snippetExists = true →
        (extractAudioSnippet env t dur).1 = .ok ()) := by
  obtain ⟨curl, ccf, fs, ff, fcf, ss⟩ := env
  unfold extractAudioSnippet cleanupTempFiles2
  rcases curl with e | u
  · simp
  · rcases ccf <;> rcases ff with e2 | u2 <;> rcases fcf <;>
      (try split_ifs) <;> simp_all

/-- When `extractAudioSnippet` fails, its catch block has already
removed both temporary files. -/
theorem extractAudioSnippet_error_disk (fenv : FetchEnv) (t dur : Int)
    (e : String) (h : (extractAudioSnippet fenv t dur).1 = .error e) :
    (extractAudioSnippet fenv t dur).2 = ⟨false, false⟩ := by
  refine Disk.eq_empty _ (extractAudioSnippet_disk fenv t dur).1 ?_
  cases hs : (extractAudioSnippet fenv t dur).2.snippetExists with
  | false => rfl
  | true =>
      have hok := (extractAudioSnippet_disk fenv t dur).2 hs
      rw [h] at hok
      exact Except.noConfusion hok

/-- The disk state `finishRun` leaves behind: the finally block deletes
the snippet exactly when `audioPath` was set. -/
theorem finishRun_disk (env : RunEnv) (title : String) (episode : Episode)
    (ts : Int) (tr : Option String) (aps : Bool) (d : Disk)
    (trace : List Event) :
    (finishRun env title episode ts tr aps d trace).disk =
      if aps then ⟨d.fullExists, false⟩ else d := by
  unfold finishRun
  dsimp only
  split
  · rfl
  · rcases env.model with e | c <;> rfl

/-- Whatever branch the audio path takes — missing audio URL, download
or trim failure, transcription failure, or a completed run through
`finishRun` with the finally-block cleanup — it leaves no temporary
audio file behind. -/
theorem audioPath_disk (env : RunEnv) (title : String) (episode : Episode)
    (ts : Int) (trace : List Event) :
    (audioPath env title episode ts trace).disk = ⟨false, false⟩ := by
  have hfe := extractAudioSnippet_disk env.fetch ts 30
  unfold audioPath
  dsimp only
  (repeat' split) <;>
    first
    | rfl
    | exact extractAudioSnippet_error_disk _ _ _ _ (by assumption)
    | (rw [finishRun_disk]; simp [hfe.1])
    | simp [hfe.1]

/-- C1: for every run of the `/process-insight` pipeline, whatever
terminal outcome it reaches — success, manual mode, any 4xx/5xx failure,
or a stage error — neither the full-length downloaded audio file nor the
trimmed snippet created by that run remains on disk after the handler
returns its response. -/
theorem processInsight_cleans_temp_files (env : RunEnv) :
    (processInsight env).disk = ⟨false, false⟩ := by
  unfold processInsight
  dsimp only
  (repeat' split) <;>
    first
    | rfl
    | (rw [finishRun_disk]; simp)
    | exact audioPath_disk _ _ _ _ _

/-- A truthy optional string is the `some` of its default-read value. -/
theorem getD_of_truthy (x : Option String)
    (h : jsTruthyOptStr x = true) : x = some (x.getD "") := by
  cases x with
  | none => simp [jsTruthyOptStr] at h
  | some s => rfl

/-- For a truthy optional string, `x || y` picks `x`. -/
theorem jsOr_of_truthy (x : Option String) (y : String)
    (h : jsTruthyOptStr x = true) : x = some (jsOrStr x y) := by
  cases x with
  | none => simp [jsTruthyOptStr] at h
  | some s =>
      simp only [jsTruthyOptStr, jsTruthyStr, Bool.not_eq_true'] at h
      simp [jsOrStr, h]

/-- `finishRun` records the transcript value it was given as the
checked transcript. -/
theorem finishRun_checked (env : RunEnv) (title : String)
    (episode : Episode) (ts : Int) (tr : Option String) (aps : Bool)
    (dk : Disk) (trace : List Event) :
    (finishRun env title episode ts tr aps dk trace).checkedTranscript =
      some tr := by
  unfold finishRun
  dsimp only
  split
  · rfl
  · rcases env.model with e | c <;> rfl

/-- On a blank transcript, `finishRun` responds 500 and appends nothing
to the trace — in particular it never emits a summarize event. -/
theorem finishRun_blank (env : RunEnv) (title : String) (episode : Episode)
    (ts : Int) (tr : Option String) (aps : Bool) (dk : Disk)
    (trace : List Event) (hb : jsBlankTranscript tr = true) :
    (finishRun env title episode ts tr aps dk trace).resp.status = 500 ∧
      (finishRun env title episode ts tr aps dk trace).trace = trace := by
  unfold finishRun
  dsimp only
  rw [if_pos hb]
  exact ⟨rfl, rfl⟩

/-- Any `data` object produced by `finishRun` carries the title,
timestamp, and show name it was handed (the show name through the
`showName || episode.showName` fallback). -/
theorem finishRun_data_shape (env : RunEnv) (title : String)
    (episode : Episode) (ts : Int) (tr : Option String) (aps : Bool)
    (dk : Disk) (trace : List Event) (dd : InsightData)
    (hd : (finishRun env title episode ts tr aps dk trace).resp.data =
      some dd) :
    dd.episodeTitle = title ∧ dd.timestampSeconds = ts ∧
      dd.showName = jsOrStr env.showName episode.showName ∧
      dd.manualMode = false := by
  unfold finishRun at hd
  dsimp only at hd
  repeat' split at hd
  all_goals try (exact Option.noConfusion hd)
  all_goals injection hd with hd
  all_goals subst hd
  all_goals exact ⟨rfl, rfl, rfl, rfl⟩

/-- Any `data` object produced by the audio path comes from `finishRun`
and hence carries the handed-down title, timestamp, and show name. -/
theorem audioPath_data_shape (env : RunEnv) (title : String)
    (episode : Episode) (ts : Int) (trace : List Event) (dd : InsightData)
    (hd : (audioPath env title episode ts trace).resp.data = some dd) :
    dd.episodeTitle = title ∧ dd.timestampSeconds = ts ∧
      dd.showName = jsOrStr env.showName episode.showName ∧
      dd.manualMode = false := by
  unfold audioPath at hd
  dsimp only at hd
  repeat' split at hd
  all_goals try (exact Option.noConfusion hd)
  all_goals exact finishRun_data_shape _ _ _ _ _ _ _ _ _ hd

/-- Field facts about a `data` object combine into the data-shape
conclusion: the caller's truthy title is the reported `episodeTitle`,
the reported timestamp is the parsed one, and a truthy caller show name
wins the `showName ||` fallback. -/
theorem data_shape_of_fields (env : RunEnv) (d : InsightData) (y : String)
    (ht : jsTruthyOptStr env.title = true)
    (h1 : d.episodeTitle = env.title.getD "")
    (h2 : d.timestampSeconds = timestampSecondsOf env.timestamp)
    (h3 : d.showName = jsOrStr env.showName y) :
    env.title = some d.episodeTitle ∧
      d.timestampSeconds = timestampSecondsOf env.timestamp ∧
      (jsTruthyOptStr env.showName = true →
        env.showName = some d.showName) := by
  refine ⟨?_, h2, fun hsn => ?_⟩
  · rw [h1]; exact getD_of_truthy env.title ht
  · rw [h3]; exact jsOr_of_truthy _ _ hsn

/-- Any `data` object of a `/process-insight` response reports the
caller's title, the parsed timestamp, and — through the `showName ||`
fallback — the caller's show name when one was supplied. -/
theorem processInsight_data_shape (env : RunEnv) (d : InsightData)
    (hd : (processInsight env).resp.data = some d) :
    env.title = some d.episodeTitle ∧
      d.timestampSeconds = timestampSecondsOf env.timestamp ∧
      (jsTruthyOptStr env.showName = true → env.showName = some d.showName) := by
  by_cases ht : jsTruthyOptStr env.title = true
  · unfold processInsight at hd
    dsimp only at hd
    repeat' split at hd
    all_goals try (exact Option.noConfusion hd)
    all_goals try (injection hd with hd)
    all_goals try
      (subst hd
       exact ⟨getD_of_truthy env.title ht, rfl,
         fun hsn => jsOr_of_truthy _ _ hsn⟩)
    all_goals try
      (exact data_shape_of_fields env d _ ht
        (finishRun_data_shape _ _ _ _ _ _ _ _ _ hd).1
        (finishRun_data_shape _ _ _ _ _ _ _ _ _ hd).2.1
        (finishRun_data_shape _ _ _ _ _ _ _ _ _ hd).2.2.1)
    all_goals
      exact data_shape_of_fields env d _ ht
        (audioPath_data_shape _ _ _ _ _ _ hd).1
        (audioPath_data_shape _ _ _ _ _ _ hd).2.1
        (audioPath_data_shape _ _ _ _ _ _ hd).2.2.1
  · simp [processInsight, ht] at hd

/-- C2: a `/process-insight` request with a non-empty title for which
the episode search returns no candidates is answered with HTTP 200,
`success: true`, `data.manualMode = true`, and no transcript in the
data (the field is JSON `null`) — not-found is a success outcome, not
an HTTP error. -/
theorem processInsight_not_found_manual_mode (env : RunEnv)
    (htitle : jsTruthyOptStr env.title = true)
    (hsearch : env.search = .ok none) :
    (processInsight env).resp.status = 200 ∧
      (processInsight env).resp.success = true ∧
      ∃ d, (processInsight env).resp.data = some d ∧
        d.manualMode = true ∧ d.transcript = none := by
  unfold processInsight
  rw [hsearch]
  simp [htitle]

/-- C9: a `/process-insight` request with a missing or empty title is
rejected with HTTP 400 and a validation message before any external
call — the run's call trace is empty. -/
theorem processInsight_missing_title_validation (env : RunEnv)
    (h : jsTruthyOptStr env.title = false) :
    (processInsight env).resp.status = 400 ∧
      (processInsight env).resp.message = some "Title is required" ∧
      (processInsight env).trace = [] := by
  unfold processInsight
  rw [h]
  exact ⟨rfl, rfl, rfl⟩

/-- C6: every run that reaches the successful Done state reports the
caller-supplied original title as `episodeTitle` and, when the caller
supplied a non-empty show name, reports that show name rather than the
one resolved by the search service. -/
theorem processInsight_done_uses_original_reference (env : RunEnv)
    (d : InsightData) (hs : (processInsight env).resp.success = true)
    (hd : (processInsight env).resp.data = some d)
    (hm : d.manualMode = false) :
    env.title = some d.episodeTitle ∧
      (jsTruthyOptStr env.showName = true → env.showName = some d.showName) :=
  ⟨(processInsight_data_shape env d hd).1,
    (processInsight_data_shape env d hd).2.2⟩

/-- C10: when the request's timestamp is absent or does not parse as an
integer, the handler runs the pipeline with `timestampSeconds = 0`, and
the `timestampSeconds` reported in any success or manual-mode response
is 0. -/
theorem processInsight_default_timestamp_zero (env : RunEnv)
    (h : env.timestamp = none ∨
      ∃ s, env.timestamp = some s ∧ jsParseInt s = none) :
    timestampSecondsOf env.timestamp = 0 ∧
      ∀ d, (processInsight env).resp.data = some d →
        d.timestampSeconds = 0 := by
  have hts : timestampSecondsOf env.timestamp = 0 := by
    rcases h with h | ⟨s, hs, hp⟩
    · rw [h]; rfl
    · rw [hs]; simp [timestampSecondsOf, hp]
  exact ⟨hts, fun d hd => by
    rw [(processInsight_data_shape env d hd).2.1, hts]⟩

/-- The absent value is falsy. -/
theorem jsTruthyOptStr_none : jsTruthyOptStr none = false := rfl

/-- When the audio path reaches the blank-transcript check with a blank
value, the run fails with 500 and the trace ends after the whisper
event — no summarize event is ever added. -/
theorem audioPath_checked_blank (env : RunEnv) (title : String)
    (episode : Episode) (ts : Int) (trace : List Event) (v : Option String)
    (hc : (audioPath env title episode ts trace).checkedTranscript = some v)
    (hb : jsBlankTranscript v = true) :
    (audioPath env title episode ts trace).resp.status = 500 ∧
      (audioPath env title episode ts trace).trace =
        trace ++ [Event.audioExtract ts] ++ [Event.whisper] := by
  by_cases hau : jsTruthyOptStr episode.audioUrl = true
  · rcases hfr : (extractAudioSnippet env.fetch ts 30).1 with msg | u
    · simp [audioPath, hau, hfr] at hc
    · rcases hw : (if (extractAudioSnippet env.fetch ts 30).2.snippetExists =
          true then env.whisper else .error statMissingFileMsg)
          with msg | txt
      · simp [audioPath, hau, hfr, hw] at hc
      · have hred : audioPath env title episode ts trace =
            finishRun env title episode ts (some txt) true
              (extractAudioSnippet env.fetch ts 30).2
              (trace ++ [Event.audioExtract ts] ++ [Event.whisper]) := by
          simp [audioPath, hau, hfr, hw]
        rw [hred] at hc ⊢
        rw [finishRun_checked] at hc
        replace hc := Option.some.inj hc
        subst hc
        exact finishRun_blank _ _ _ _ _ _ _ _ hb
  · simp [audioPath, hau] at hc

/-- C8: every run in which control reaches the blank-transcript check
with an empty or whitespace-only transcript fails with an HTTP 500
response, and its trace contains no summarize event — the language
model is never called on a blank transcript. -/
theorem processInsight_blank_transcript_no_summarize (env : RunEnv)
    (v : Option String)
    (hc : (processInsight env).checkedTranscript = some v)
    (hb : jsBlankTranscript v = true) :
    (processInsight env).resp.status = 500 ∧
      ∀ s, Event.summarize s ∉ (processInsight env).trace := by
  by_cases ht : jsTruthyOptStr env.title = true
  · rcases hsearch : env.search with e | oep
    · simp [processInsight, ht, hsearch] at hc
    · rcases oep with _ | episode
      · simp [processInsight, ht, hsearch] at hc
      · by_cases hht : episode.hasTranscript = true
        · rcases hget : getEpisodeTranscript env with _ | p
          · have hred : processInsight env =
                audioPath env (env.title.getD "") episode
                  (timestampSecondsOf env.timestamp)
                  [Event.search, Event.getTranscript] := by
              simp [processInsight, ht, hsearch, hht, hget, jsTruthyOptStr_none]
            rw [hred] at hc ⊢
            obtain ⟨h1, h2⟩ := audioPath_checked_blank _ _ _ _ _ _ hc hb
            rw [h1, h2]
            simp
          · by_cases htr : jsTruthyOptStr (extractTranscriptSegment p
                (timestampSecondsOf env.timestamp) 30) = true
            · have hred : processInsight env =
                  finishRun env (env.title.getD "") episode
                    (timestampSecondsOf env.timestamp)
                    (extractTranscriptSegment p
                      (timestampSecondsOf env.timestamp) 30) false
                    ⟨false, false⟩ [Event.search, Event.getTranscript] := by
                simp [processInsight, ht, hsearch, hht, hget, htr]
              rw [hred] at hc ⊢
              rw [finishRun_checked] at hc
              replace hc := Option.some.inj hc
              subst hc
              obtain ⟨h1, h2⟩ := finishRun_blank _ _ _ _ _ _ _ _ hb
              rw [h1, h2]
              simp
            · have hred : processInsight env =
                  audioPath env (env.title.getD "") episode
                    (timestampSecondsOf env.timestamp)
                    [Event.search, Event.getTranscript] := by
                simp [processInsight, ht, hsearch, hht, hget, htr]
              rw [hred] at hc ⊢
              obtain ⟨h1, h2⟩ := audioPath_checked_blank _ _ _ _ _ _ hc hb
              rw [h1, h2]
              simp
        · have hred : processInsight env =
              audioPath env (env.title.getD "") episode
                (timestampSecondsOf env.timestamp) [Event.search] := by
            simp [processInsight, ht, hsearch, hht, jsTruthyOptStr_none]
          rw [hred] at hc ⊢
          obtain ⟨h1, h2⟩ := audioPath_checked_blank _ _ _ _ _ _ hc hb
          rw [h1, h2]
          simp
  · simp [processInsight, ht] at hc

/-! ## Concrete environments and witnesses -/

/-- A fetch environment in which download and trim both succeed with
plausible file sizes. -/
def fetchOkEnv : FetchEnv := ⟨.ok (), true, 20000, .ok (), true, 5000⟩

/-- A request whose episode search returns no candidates. -/
def c2Env : RunEnv :=
  ⟨some "My Episode", some "My Show", none, none, .ok none, none,
    fetchOkEnv, .ok "t", .ok "- A"⟩

/-- Concrete instance of the manual-mode contract: the not-found run of
`c2Env` is answered with HTTP 200. -/
theorem processInsight_not_found_manual_mode_witness :
    (processInsight c2Env).resp.status = 200 :=
  (processInsight_not_found_manual_mode c2Env rfl rfl).1

/-- An episode resolved by the search service with a title and show name
that differ from the caller's. -/
def c6Episode : Episode :=
  ⟨"ep1", "Resolved Title", "Resolved Show", some "http://audio",
    some "http://thumb", true⟩

/-- A request that runs to the successful Done state through the
embedded-transcript path. -/
def c6Env : RunEnv :=
  ⟨some "Original Title", some "Original Show", some "0", none,
    .ok (some c6Episode), some (.flat "alpha beta gamma"), fetchOkEnv,
    .ok "fallback transcript", .ok "- One\n- Two\n- Three"⟩

/-- The `data` object the run of `c6Env` produces. -/
def c6Data : InsightData :=
  ⟨"Original Title", "Original Show", some "http://thumb",
    some "alpha beta gamma", some ["One", "Two", "Three"], 0, false, none⟩

/-- Concrete instance of the Done-state contract: the successful run of
`c6Env` reports the caller's original title, not the resolved one. -/
theorem processInsight_done_uses_original_reference_witness :
    c6Env.title = some c6Data.episodeTitle :=
  (processInsight_done_uses_original_reference c6Env c6Data (by rfl)
    (by rfl) (by rfl)).1

/-- An episode whose embedded transcript segments to a whitespace-only
string. -/
def c8Episode : Episode :=
  ⟨"ep2", "T", "S", some "http://audio", none, true⟩

/-- A request whose transcript at the blank check is the whitespace-only
string `" "`. -/
def c8Env : RunEnv :=
  ⟨some "Ep", none, none, none, .ok (some c8Episode), some (.flat " "),
    fetchOkEnv, .ok "x", .ok "- A"⟩

/-- Concrete instance of the blank-transcript contract: the run of
`c8Env` fails with HTTP 500. -/
theorem processInsight_blank_transcript_no_summarize_witness :
    (processInsight c8Env).resp.status = 500 :=
  (processInsight_blank_transcript_no_summarize c8Env (some " ") rfl rfl).1

/-- A request with no title. -/
def c9Env : RunEnv :=
  ⟨none, none, none, none, .ok none, none, fetchOkEnv, .ok "x", .ok "y"⟩

/-- Concrete instance of the validation contract: the run of `c9Env` is
rejected with HTTP 400, the validation message, and an empty call
trace. -/
theorem processInsight_missing_title_validation_witness :
    (processInsight c9Env).resp.status = 400 ∧
      (processInsight c9Env).resp.message = some "Title is required" ∧
      (processInsight c9Env).trace = [] :=
  processInsight_missing_title_validation c9Env rfl

/-- A request whose timestamp field does not parse as an integer. -/
def c10Env : RunEnv :=
  ⟨some "Ep", none, some "abc", none, .ok none, none, fetchOkEnv,
    .ok "x", .ok "y"⟩

/-- Concrete instance of the timestamp-default contract: the run of
`c10Env` uses `timestampSeconds = 0`. -/
theorem processInsight_default_timestamp_zero_witness :
    timestampSecondsOf c10Env.timestamp = 0 :=
  (processInsight_default_timestamp_zero c10Env (Or.inr ⟨"abc", rfl, rfl⟩)).1

end WisdomVault
